import Mathlib

/-!
Shallow embedding of `bin/EnsimeClient.py`: a bidirectional stream proxy
between a console (stdin/stdout) and a TCP server speaking a
length-prefixed protocol.

Python 2 byte strings are modelled as `List Char`; the server socket's
incoming bytes are a list of chunks (`List (List Char)`), where one
`recv` call returns at most one chunk (possibly truncated to the
requested count) and an exhausted chunk list models end-of-stream
(`recv` returning the empty string).  The console input is the list of
lines still to be delivered by `sys.stdin.readline()`, each line carrying
its terminator exactly as `readline` returns it; the empty list models
end-of-stream, where `readline` returns the empty string.  Writes to
either side always succeed and are accumulated in the state.
-/

namespace EnsimeClient

/-- The digit characters produced by Python's `"%x"` formatting:
`0`-`9` then lowercase `a`-`f`. -/
def hexDigitChar (m : Nat) : Char :=
  if m < 10 then Char.ofNat (48 + m) else Char.ofNat (87 + m)

/-- Big-endian hex digits of `n`, fuelled for structural recursion;
`hexAux f n` is the digit string of `n` whenever `n ≤ f` and `0 < n`. -/
def hexAux : Nat → Nat → List Char
  | _, 0 => []
  | 0, _ => []
  | f+1, n+1 => hexAux f ((n+1) / 16) ++ [hexDigitChar ((n+1) % 16)]

/-- Python's `"%x" % n` for a natural number `n`. -/
def pyHex (n : Nat) : List Char :=
  if n = 0 then ['0'] else hexAux n n

/-- Python's `"%06x" % n`: the hex digits of `n`, left-padded with `'0'`
to width 6 (line 175 of `EnsimeClient.py`). -/
def pyFormat06x (n : Nat) : List Char :=
  List.replicate (6 - (pyHex n).length) '0' ++ pyHex n

/-- Whitespace characters stripped by Python's `int(s, 16)`. -/
def isPySpace (c : Char) : Bool :=
  c = ' ' || c = '\t' || c = '\n' || c = '\r' || c = '\x0b' || c = '\x0c'

/-- Strip leading and trailing whitespace, as `int(s, 16)` does. -/
def pyStrip (l : List Char) : List Char :=
  ((l.dropWhile isPySpace).reverse.dropWhile isPySpace).reverse

/-- A lowercase hexadecimal digit character (`0`-`9`, `a`-`f`). -/
def isLowerHexChar (c : Char) : Bool :=
  ('0' ≤ c && c ≤ '9') || ('a' ≤ c && c ≤ 'f')

/-- Any hexadecimal digit character accepted by `int(s, 16)`. -/
def isHexChar (c : Char) : Bool :=
  isLowerHexChar c || ('A' ≤ c && c ≤ 'F')

/-- Numeric value of a hexadecimal digit character. -/
def hexCharVal (c : Char) : Nat :=
  if 'a' ≤ c && c ≤ 'f' then c.toNat - 87
  else if 'A' ≤ c && c ≤ 'F' then c.toNat - 55
  else c.toNat - 48

/-- Drop an optional `0x`/`0X` radix mark, as `int(s, 16)` allows. -/
def stripHexMark (l : List Char) : List Char :=
  match l with
  | c0 :: c1 :: rest => if c0 = '0' && (c1 = 'x' || c1 = 'X') then rest else l
  | _ => l

/-- Parse a non-empty all-hex digit string to its value. -/
def parseHexDigits (l : List Char) : Option Nat :=
  if l.isEmpty then none
  else if l.all isHexChar then
    some (l.foldl (fun a c => 16 * a + hexCharVal c) 0)
  else none

/-- Python 2's `int(s, 16)`: optional surrounding whitespace, optional
sign, optional `0x` mark, then at least one hex digit; `none` models the
`ValueError` raised otherwise (line 79 of `EnsimeClient.py`). -/
def pyIntHex (s : List Char) : Option Int :=
  match pyStrip s with
  | [] => none
  | c :: rest =>
    if c = '+' then (parseHexDigits (stripHexMark rest)).map (fun v => (v : Int))
    else if c = '-' then (parseHexDigits (stripHexMark rest)).map (fun v => -(v : Int))
    else (parseHexDigits (stripHexMark (c :: rest))).map (fun v => (v : Int))

/-- `socket.recv n` over a chunked stream: return at most `n` bytes from
the first pending chunk; an empty chunk list is end-of-stream, where
`recv` returns the empty string. -/
def recvChunks (n : Nat) : List (List Char) → List Char × List (List Char)
  | [] => ([], [])
  | c :: rest =>
    (c.take n, if (c.drop n).isEmpty then rest else c.drop n :: rest)

/-- The observable I/O state of one proxy session: bytes still pending
on each input and bytes written so far to each output. -/
structure ProxyState where
  serverIn : List (List Char)
  consoleIn : List (List Char)
  serverOut : List Char
  consoleOut : List Char
deriving DecidableEq

/-- `Proxy.Read.server` (lines 76-84): `recv(6)`, parse the bytes as a
hexadecimal integer, then `recv` that many payload bytes.  An exception
(`int` failing, or `recv` called with a negative count) yields the
`(None, None, None)` triple, modelled as `none`. -/
def Read.server (st : ProxyState) : Option (Nat × List Char × List Char) × ProxyState :=
  let hexSize := (recvChunks 6 st.serverIn).1
  let s1 := (recvChunks 6 st.serverIn).2
  match pyIntHex hexSize with
  | none => (none, {st with serverIn := s1})
  | some z =>
    if z < 0 then (none, {st with serverIn := s1})
    else (some (z.toNat, hexSize, (recvChunks z.toNat s1).1),
          {st with serverIn := (recvChunks z.toNat s1).2})

/-- `Proxy.Read.stdin` (lines 86-92): `sys.stdin.readline()`, which
returns the next line, or the empty string at end-of-stream; `none`
models the exception path only, which the deterministic model never
takes. -/
def Read.stdin (st : ProxyState) : Option (List Char) × ProxyState :=
  match st.consoleIn with
  | [] => (some [], st)
  | l :: rest => (some l, {st with consoleIn := rest})

/-- `Proxy.Write.server` (lines 98-104): `sendall`, modelled as always
succeeding and appending to the server-bound output. -/
def Write.server (st : ProxyState) (data : List Char) : ProxyState × Bool :=
  ({st with serverOut := st.serverOut ++ data}, true)

/-- `Proxy.Write.stdout` (lines 106-113): write and flush to stdout,
modelled as always succeeding. -/
def Write.stdout (st : ProxyState) (data : List Char) : ProxyState × Bool :=
  ({st with consoleOut := st.consoleOut ++ data}, true)

/-- `RawProxy.fromServer` (lines 126-136): read a frame and re-emit
`hexSize + data` verbatim to stdout. -/
def RawProxy.fromServer (st : ProxyState) : ProxyState × Bool :=
  match Read.server st with
  | (none, st1) => (st1, false)
  | (some r, st1) => Write.stdout st1 (r.2.1 ++ r.2.2)

/-- `RawProxy.fromStdin` (lines 138-148): read a line and send it to the
server unmodified. -/
def RawProxy.fromStdin (st : ProxyState) : ProxyState × Bool :=
  match Read.stdin st with
  | (none, st1) => (st1, false)
  | (some data, st1) => Write.server st1 data

/-- `SwankProxy.fromServer` (lines 156-166): read a frame, drop the
header, write `data + "\n"` to stdout. -/
def SwankProxy.fromServer (st : ProxyState) : ProxyState × Bool :=
  match Read.server st with
  | (none, st1) => (st1, false)
  | (some r, st1) => Write.stdout st1 (r.2.2 ++ ['\n'])

/-- `SwankProxy.fromStdin` (lines 168-179): read a line, prepend
`"%06x" % len(data)`, send to the server. -/
def SwankProxy.fromStdin (st : ProxyState) : ProxyState × Bool :=
  match Read.stdin st with
  | (none, st1) => (st1, false)
  | (some data, st1) =>
    let dataSize := pyFormat06x data.length
    Write.server st1 (dataSize ++ data)

/-- The two endpoints watched by `select` in `runProxy`. -/
inductive Endpoint
  | server
  | console
deriving DecidableEq

/-- A framing strategy: the pair of handlers installed in
`inputHandlers` by `runProxy` (line 284). -/
structure ProxyImpl where
  fromServer : ProxyState → ProxyState × Bool
  fromStdin : ProxyState → ProxyState × Bool

/-- The `RawProxy` handler table. -/
def RawProxyImpl : ProxyImpl := ⟨RawProxy.fromServer, RawProxy.fromStdin⟩

/-- The `SwankProxy` handler table. -/
def SwankProxyImpl : ProxyImpl := ⟨SwankProxy.fromServer, SwankProxy.fromStdin⟩

/-- `inputHandlers[ii]` dispatch (line 284). -/
def dispatch (p : ProxyImpl) (e : Endpoint) : ProxyState → ProxyState × Bool :=
  match e with
  | .server => p.fromServer
  | .console => p.fromStdin

/-- One iteration body of the `while flag` loop (lines 294-296): for
each endpoint reported ready, invoke its handler; a `False` result
clears the flag but the `for` loop is not aborted.  Returns the final
state, the final flag, and the list of handler results in invocation
order. -/
def runIteration (p : ProxyImpl) : List Endpoint → ProxyState → Bool → ProxyState × Bool × List Bool
  | [], st, flag => (st, flag, [])
  | e :: rest, st, flag =>
    let r1 := dispatch p e st
    let r := runIteration p rest r1.1 (if r1.2 then flag else false)
    (r.1, r.2.1, r1.2 :: r.2.2)

/-- The `while flag` loop of `runProxy` (lines 287-300), fuelled: the
flag is consulted only at the top of each iteration; `sched t` gives the
endpoints `select` reports ready on iteration `t`. -/
def runLoop (p : ProxyImpl) : Nat → (Nat → List Endpoint) → Nat → ProxyState → Bool → ProxyState × Bool
  | 0, _, _, st, flag => (st, flag)
  | fuel+1, sched, t, st, flag =>
    if flag then
      let r := runIteration p (sched t) st flag
      runLoop p fuel sched (t+1) r.1 r.2.1
    else (st, flag)

/-! Facts about the hex formatting used for the length header. -/

theorem hexCharVal_hexDigitChar : ∀ d, d < 16 → hexCharVal (hexDigitChar d) = d := by
  decide

theorem isLowerHexChar_hexDigitChar : ∀ d, d < 16 → isLowerHexChar (hexDigitChar d) = true := by
  decide

theorem hexAux_all_lower : ∀ f n, (hexAux f n).all isLowerHexChar = true := by
  intro f
  induction f with
  | zero => intro n; cases n <;> rfl
  | succ f ih =>
    intro n
    cases n with
    | zero => rfl
    | succ m =>
      rw [hexAux, List.all_append]
      have hd : isLowerHexChar (hexDigitChar ((m+1) % 16)) = true :=
        isLowerHexChar_hexDigitChar _ (Nat.mod_lt _ (by norm_num))
      simp [ih, hd]

theorem hexAux_foldl (f : Nat) : ∀ n a, n ≤ f →
    (hexAux f n).foldl (fun a c => 16 * a + hexCharVal c) a
      = a * 16 ^ (hexAux f n).length + n := by
  induction f with
  | zero =>
    intro n a h
    have : n = 0 := Nat.le_zero.mp h
    subst this
    simp [hexAux]
  | succ f ih =>
    intro n a h
    cases n with
    | zero => simp [hexAux]
    | succ m =>
      have hdiv : (m+1) / 16 ≤ f := by
        have h1 : (m+1) / 16 < m + 1 := Nat.div_lt_self (Nat.succ_pos m) (by norm_num)
        omega
      rw [hexAux, List.foldl_append, List.length_append]
      simp only [List.foldl_cons, List.foldl_nil, List.length_cons, List.length_nil]
      rw [ih _ _ hdiv]
      rw [hexCharVal_hexDigitChar _ (Nat.mod_lt _ (by norm_num))]
      have : 16 * (a * 16 ^ (hexAux f ((m+1)/16)).length + (m+1)/16) + (m+1) % 16
          = a * (16 ^ (hexAux f ((m+1)/16)).length * 16) + (16 * ((m+1)/16) + (m+1) % 16) := by
        ring
      rw [this, Nat.div_add_mod, pow_succ]

theorem hexAux_length_le (f : Nat) : ∀ n k, n ≤ f → n < 16 ^ k → (hexAux f n).length ≤ k := by
  induction f with
  | zero =>
    intro n k h _
    have : n = 0 := Nat.le_zero.mp h
    subst this
    simp [hexAux]
  | succ f ih =>
    intro n k h hk
    cases n with
    | zero => simp [hexAux]
    | succ m =>
      cases k with
      | zero => simp at hk
      | succ j =>
        have hdiv : (m+1) / 16 ≤ f := by
          have h1 : (m+1) / 16 < m + 1 := Nat.div_lt_self (Nat.succ_pos m) (by norm_num)
          omega
        have hk' : (m+1) / 16 < 16 ^ j := by
          rw [Nat.div_lt_iff_lt_mul (by norm_num : 0 < 16)]
          calc m + 1 < 16 ^ (j+1) := hk
          _ = 16 ^ j * 16 := by rw [pow_succ]
        rw [hexAux, List.length_append]
        have := ih _ j hdiv hk'
        simp only [List.length_cons, List.length_nil]
        omega

theorem hexAux_length_ge (f : Nat) : ∀ n k, n ≤ f → 16 ^ k ≤ n → k + 1 ≤ (hexAux f n).length := by
  induction f with
  | zero =>
    intro n k h hk
    have : n = 0 := Nat.le_zero.mp h
    subst this
    exact absurd hk (Nat.not_le.mpr (pow_pos (by norm_num) k))
  | succ f ih =>
    intro n k h hk
    cases n with
    | zero => exact absurd hk (Nat.not_le.mpr (pow_pos (by norm_num) k))
    | succ m =>
      rw [hexAux, List.length_append]
      simp only [List.length_cons, List.length_nil]
      cases k with
      | zero => omega
      | succ j =>
        have hdiv : (m+1) / 16 ≤ f := by
          have h1 : (m+1) / 16 < m + 1 := Nat.div_lt_self (Nat.succ_pos m) (by norm_num)
          omega
        have hk' : 16 ^ j ≤ (m+1) / 16 := by
          rw [Nat.le_div_iff_mul_le (by norm_num : 0 < 16)]
          calc 16 ^ j * 16 = 16 ^ (j+1) := (pow_succ 16 j).symm
          _ ≤ m + 1 := hk
        have := ih _ j hdiv hk'
        omega

theorem pyHex_length_le {n : Nat} (h : n ≤ 0xFFFFFF) : (pyHex n).length ≤ 6 := by
  by_cases h0 : n = 0
  · subst h0; simp [pyHex]
  · rw [pyHex, if_neg h0]
    exact hexAux_length_le n n 6 le_rfl (by omega)

theorem pyFormat06x_length {n : Nat} (h : n ≤ 0xFFFFFF) : (pyFormat06x n).length = 6 := by
  have := pyHex_length_le h
  rw [pyFormat06x, List.length_append, List.length_replicate]
  omega

theorem pyHex_all_lower (n : Nat) : (pyHex n).all isLowerHexChar = true := by
  by_cases h0 : n = 0
  · subst h0; rfl
  · rw [pyHex, if_neg h0]; exact hexAux_all_lower n n

theorem pyFormat06x_all_lower (n : Nat) : (pyFormat06x n).all isLowerHexChar = true := by
  rw [pyFormat06x, List.all_append, pyHex_all_lower, Bool.and_true]
  rw [List.all_eq_true]
  intro c hc
  rw [List.eq_of_mem_replicate hc]
  decide

/-! Facts about `pyIntHex`: parsing the generated header recovers the
length. -/

theorem isLowerHexChar_not_space {c : Char} (h : isLowerHexChar c = true) :
    isPySpace c = false := by
  by_contra hsp
  rw [Bool.not_eq_false] at hsp
  simp only [isPySpace, Bool.or_eq_true, decide_eq_true_eq] at hsp
  rcases hsp with ((((h1 | h1) | h1) | h1) | h1) | h1 <;> subst h1 <;>
    exact absurd h (by decide)

theorem isLowerHexChar_isHexChar {c : Char} (h : isLowerHexChar c = true) :
    isHexChar c = true := by
  rw [isHexChar, h, Bool.true_or]

theorem dropWhile_space_eq_self (l : List Char) (h : ∀ c ∈ l, isPySpace c = false) :
    l.dropWhile isPySpace = l := by
  cases l with
  | nil => rfl
  | cons a t =>
    rw [List.dropWhile_cons, h a (List.mem_cons_self a t)]
    simp

theorem pyStrip_eq_self {l : List Char} (h : ∀ c ∈ l, isPySpace c = false) :
    pyStrip l = l := by
  rw [pyStrip, dropWhile_space_eq_self l h,
    dropWhile_space_eq_self _ (fun c hc => h c (List.mem_reverse.mp hc)),
    List.reverse_reverse]

theorem pyIntHex_of_lower (s : List Char) (hne : s ≠ [])
    (hall : ∀ c ∈ s, isLowerHexChar c = true) :
    pyIntHex s = some ((s.foldl (fun a c => 16 * a + hexCharVal c) 0 : Nat) : Int) := by
  have hstrip : pyStrip s = s :=
    pyStrip_eq_self (fun c hc => isLowerHexChar_not_space (hall c hc))
  cases s with
  | nil => exact absurd rfl hne
  | cons c rest =>
    have hc := hall c (List.mem_cons_self c rest)
    have hplus : ¬(c = '+') := by intro he; subst he; exact absurd hc (by decide)
    have hminus : ¬(c = '-') := by intro he; subst he; exact absurd hc (by decide)
    rw [pyIntHex, hstrip]
    simp only [if_neg hplus, if_neg hminus]
    have hmark : stripHexMark (c :: rest) = c :: rest := by
      cases rest with
      | nil => rfl
      | cons c1 rest' =>
        have hc1 := hall c1 (by simp)
        have hx : ¬(c1 = 'x') := by intro he; subst he; exact absurd hc1 (by decide)
        have hX : ¬(c1 = 'X') := by intro he; subst he; exact absurd hc1 (by decide)
        simp [stripHexMark, hx, hX]
    rw [hmark, parseHexDigits]
    have hallhex : (c :: rest).all isHexChar = true := by
      rw [List.all_eq_true]
      intro x hx
      exact isLowerHexChar_isHexChar (hall x hx)
    simp [hallhex]

theorem pyHex_ne_nil (n : Nat) : pyHex n ≠ [] := by
  by_cases h0 : n = 0
  · subst h0; simp [pyHex]
  · rw [pyHex, if_neg h0]
    cases n with
    | zero => exact absurd rfl h0
    | succ m => rw [hexAux]; simp

theorem foldl_replicate_zero_char : ∀ k,
    (List.replicate k '0').foldl (fun a c => 16 * a + hexCharVal c) 0 = 0 := by
  intro k
  induction k with
  | zero => rfl
  | succ k ih => rw [List.replicate_succ, List.foldl_cons]; simpa using ih

theorem foldl_pyFormat06x (n : Nat) :
    (pyFormat06x n).foldl (fun a c => 16 * a + hexCharVal c) 0 = n := by
  rw [pyFormat06x, List.foldl_append, foldl_replicate_zero_char]
  by_cases h0 : n = 0
  · subst h0; rfl
  · rw [pyHex, if_neg h0, hexAux_foldl n n 0 le_rfl]
    simp

theorem parse_pyFormat06x (n : Nat) : pyIntHex (pyFormat06x n) = some (n : Int) := by
  have hne : pyFormat06x n ≠ [] := by
    rw [pyFormat06x]
    intro he
    exact pyHex_ne_nil n (List.append_eq_nil.mp he).2
  have hmem : ∀ c ∈ pyFormat06x n, isLowerHexChar c = true :=
    List.all_eq_true.mp (pyFormat06x_all_lower n)
  rw [pyIntHex_of_lower _ hne hmem, foldl_pyFormat06x]

/-! Behaviour of the channel reads on well-formed input. -/

theorem recvChunks_header (hdr p : List Char) (hlen : hdr.length = 6) :
    recvChunks 6 [hdr ++ p] = (hdr, if p.isEmpty then [] else [p]) := by
  simp only [recvChunks, List.take_left' hlen, List.drop_left' hlen]

theorem recvChunks_exact (p : List Char) :
    recvChunks p.length (if p.isEmpty then [] else [p]) = (p, []) := by
  cases p with
  | nil => rfl
  | cons a t =>
    simp only [List.isEmpty_cons, Bool.false_eq_true, if_false]
    simp [recvChunks, List.take_length, List.drop_length]

theorem Read.server_frame (st : ProxyState) (hdr p : List Char)
    (hlen : hdr.length = 6) (hval : pyIntHex hdr = some (p.length : Int))
    (hs : st.serverIn = [hdr ++ p]) :
    Read.server st = (some (p.length, hdr, p), {st with serverIn := []}) := by
  have h1 : recvChunks 6 st.serverIn = (hdr, if p.isEmpty then [] else [p]) := by
    rw [hs]; exact recvChunks_header hdr p hlen
  have h2 : ¬((p.length : Int) < 0) := not_lt.mpr (Int.natCast_nonneg _)
  simp only [Read.server, h1, hval, if_neg h2, Int.toNat_natCast, recvChunks_exact p]

theorem Read.server_badHeader (st : ProxyState)
    (h : pyIntHex (recvChunks 6 st.serverIn).1 = none) :
    Read.server st = (none, {st with serverIn := (recvChunks 6 st.serverIn).2}) := by
  simp only [Read.server, h]

theorem SwankProxy.fromStdin_spec (st : ProxyState) (line : List Char)
    (rest : List (List Char)) (h : st.consoleIn = line :: rest) :
    SwankProxy.fromStdin st
      = ({st with consoleIn := rest, serverOut := st.serverOut ++ (pyFormat06x line.length ++ line)}, true) := by
  simp only [SwankProxy.fromStdin, Read.stdin, h, Write.server]

theorem swankFromServer_frame (hdr p : List Char) (ci : List (List Char))
    (so co : List Char) (hlen : hdr.length = 6)
    (hval : pyIntHex hdr = some (p.length : Int)) :
    SwankProxy.fromServer ⟨[hdr ++ p], ci, so, co⟩
      = (⟨[], ci, so, co ++ (p ++ ['\n'])⟩, true) := by
  have h := Read.server_frame ⟨[hdr ++ p], ci, so, co⟩ hdr p hlen hval rfl
  simp only [SwankProxy.fromServer, h, Write.stdout]

theorem rawFromServer_frame (hdr p : List Char) (ci : List (List Char))
    (so co : List Char) (hlen : hdr.length = 6)
    (hval : pyIntHex hdr = some (p.length : Int)) :
    RawProxy.fromServer ⟨[hdr ++ p], ci, so, co⟩
      = (⟨[], ci, so, co ++ (hdr ++ p)⟩, true) := by
  have h := Read.server_frame ⟨[hdr ++ p], ci, so, co⟩ hdr p hlen hval rfl
  simp only [RawProxy.fromServer, h, Write.stdout]

/-! Facts about the multiplexing loop. -/

theorem runIteration_trace_length (p : ProxyImpl) :
    ∀ (ready : List Endpoint) (st : ProxyState) (flag : Bool),
      (runIteration p ready st flag).2.2.length = ready.length := by
  intro ready
  induction ready with
  | nil => intro st flag; rfl
  | cons e rest ih =>
    intro st flag
    simp only [runIteration, List.length_cons]
    rw [ih]

theorem runIteration_state_foldl (p : ProxyImpl) :
    ∀ (ready : List Endpoint) (st : ProxyState) (flag : Bool),
      (runIteration p ready st flag).1
        = ready.foldl (fun s e => (dispatch p e s).1) st := by
  intro ready
  induction ready with
  | nil => intro st flag; rfl
  | cons e rest ih =>
    intro st flag
    simp only [runIteration, List.foldl_cons]
    rw [ih]

theorem runLoop_stopped (p : ProxyImpl) (fuel : Nat) (sched : Nat → List Endpoint)
    (t : Nat) (st : ProxyState) : runLoop p fuel sched t st false = (st, false) := by
  cases fuel <;> simp [runLoop]

/-! Claim theorems. -/

/-- C1: for every payload `p` with `0 ≤ len p ≤ 0xFFFFFF`, encoding `p`
via the LengthPrefixed outbound path (`SwankProxy.fromStdin`, which
emits `"%06x" % len p` followed by `p`) and then decoding those bytes
via the LengthPrefixed inbound read (`Read.server`) yields back exactly
the payload `p`. -/
theorem claim1_roundTrip (p : List Char) (h : p.length ≤ 0xFFFFFF) :
    (Read.server ⟨[((SwankProxy.fromStdin ⟨[], [p], [], []⟩).1).serverOut], [], [], []⟩).1
      = some (p.length, pyFormat06x p.length, p) := by
  have henc := SwankProxy.fromStdin_spec ⟨[], [p], [], []⟩ p [] rfl
  have hso : ((SwankProxy.fromStdin ⟨[], [p], [], []⟩).1).serverOut
      = pyFormat06x p.length ++ p := by
    rw [henc]
    rfl
  rw [hso, Read.server_frame ⟨[pyFormat06x p.length ++ p], [], [], []⟩
    (pyFormat06x p.length) p (pyFormat06x_length h) (parse_pyFormat06x p.length) rfl]

/-- Witness for C1 at the payload `"ping"`. -/
theorem claim1_roundTrip_witness :
    ("ping".toList.length ≤ 0xFFFFFF)
      ∧ (Read.server ⟨[((SwankProxy.fromStdin ⟨[], ["ping".toList], [], []⟩).1).serverOut],
            [], [], []⟩).1
          = some ("ping".toList.length, pyFormat06x "ping".toList.length, "ping".toList) :=
  ⟨by decide, claim1_roundTrip "ping".toList (by decide)⟩

/-- C2 counterexample: the claim says the console line terminator is
stripped before framing, so console input `"ping"` (read by `readline`
as `"ping\n"`) would produce server bytes `"000004ping"`.  The code
keeps the terminator returned by `sys.stdin.readline()`, counts it in
the header, and sends it, producing `"000005ping\n"` instead. -/
theorem claim2_counterexample :
    SwankProxy.fromStdin ⟨[], ["ping\n".toList], [], []⟩
        = (⟨[], [], "000005ping\n".toList, []⟩, true)
      ∧ "000005ping\n".toList ≠ "000004ping".toList :=
  ⟨by decide, by decide⟩

/-- C2 amended: in LengthPrefixed mode the outbound path reads one
console line including its terminator, computes the header as the
6-character zero-padded lowercase hex of the length of the line with
its terminator still attached, and writes `header ++ line` (terminator
included) to the server; the console line `"ping"` arrives as
`"ping\n"` (5 bytes) and produces server bytes `"000005ping\n"`. -/
theorem claim2_amended (st : ProxyState) (line : List Char) (rest : List (List Char))
    (h : st.consoleIn = line :: rest) :
    SwankProxy.fromStdin st
      = ({st with consoleIn := rest, serverOut := st.serverOut ++ (pyFormat06x line.length ++ line)}, true) :=
  SwankProxy.fromStdin_spec st line rest h

/-- Witness for the amended C2 at the console line `"ping\n"`. -/
theorem claim2_amended_witness :
    ((⟨[], ["ping\n".toList], [], []⟩ : ProxyState).consoleIn = "ping\n".toList :: [])
      ∧ SwankProxy.fromStdin ⟨[], ["ping\n".toList], [], []⟩
        = ({(⟨[], ["ping\n".toList], [], []⟩ : ProxyState) with consoleIn := ([] : List (List Char)), serverOut := (⟨[], ["ping\n".toList], [], []⟩ : ProxyState).serverOut ++ (pyFormat06x "ping\n".toList.length ++ "ping\n".toList)}, true) :=
  ⟨rfl, claim2_amended _ _ _ rfl⟩

/-- C3: the claim says console end-of-stream makes the read fail with a
`ReadError` and stops the loop.  In the code `sys.stdin.readline()`
returns the empty string at end-of-stream, which is not `None`, so the
guard in `SwankProxy.fromStdin` never fires: the handler frames the
empty string, sends `"000000"` to the server, returns `True`, and the
loop keeps running.  This theorem evaluates the loop body at the failing
input (console exhausted, console reported ready): the handler runs,
appends `"000000"` to the server stream, and the flag stays `true`. -/
theorem claim3_eofConsoleKeepsRunning :
    runIteration SwankProxyImpl [Endpoint.console] ⟨[], [], [], []⟩ true
      = (⟨[], [], "000000".toList, []⟩, true, [true]) := by
  decide

/-- C4 counterexample: the claim says Raw inbound appends exactly one
trailing newline, so server bytes `"00000aHELLO TEST"` would produce
console output `"00000aHELLO TEST\n"`.  `RawProxy.fromServer` writes
`hexSize + data` with no newline: the console output is exactly the 16
bytes read. -/
theorem claim4_counterexample :
    RawProxy.fromServer ⟨["00000aHELLO TEST".toList], [], [], []⟩
        = (⟨[], [], [], "00000aHELLO TEST".toList⟩, true)
      ∧ "00000aHELLO TEST".toList ≠ "00000aHELLO TEST\n".toList :=
  ⟨by decide, by decide⟩

/-- C4 amended: in Raw mode, for every frame read from the server
(6-byte header plus `N`-byte payload), the inbound path writes the
`6 + N` bytes read to the console unaltered, with no newline appended:
server bytes `"00000aHELLO TEST"` produce console output exactly
`"00000aHELLO TEST"`. -/
theorem claim4_amended (hdr p : List Char) (ci : List (List Char)) (so co : List Char)
    (hlen : hdr.length = 6) (hval : pyIntHex hdr = some (p.length : Int)) :
    RawProxy.fromServer ⟨[hdr ++ p], ci, so, co⟩
      = (⟨[], ci, so, co ++ (hdr ++ p)⟩, true) :=
  rawFromServer_frame hdr p ci so co hlen hval

/-- Witness for the amended C4 at the frame `"00000aHELLO TEST"`. -/
theorem claim4_amended_witness :
    ("00000a".toList.length = 6)
      ∧ (pyIntHex "00000a".toList = some ("HELLO TEST".toList.length : Int))
      ∧ RawProxy.fromServer ⟨["00000a".toList ++ "HELLO TEST".toList], [], [], []⟩
          = (⟨[], [], [], [] ++ ("00000a".toList ++ "HELLO TEST".toList)⟩, true) :=
  ⟨by decide, by decide, claim4_amended _ _ _ _ _ (by decide) (by decide)⟩

/-- C5 counterexample: the claim says the frame read never returns a
successful result with fewer than `n` payload bytes.  With the header
`"00000a"` delivered and then end-of-stream, the payload `recv` returns
the empty string and `Proxy.Read.server` still returns success:
`(10, "00000a", "")`, a successful result with `0 < 10` payload
bytes. -/
theorem claim5_counterexample :
    Read.server ⟨["00000a".toList], [], [], []⟩
        = (some (10, "00000a".toList, []), ⟨[], [], [], []⟩)
      ∧ ([] : List Char).length < 10 :=
  ⟨by decide, by decide⟩

/-- C5 amended: the frame read issues one `recv(6)` and one `recv(n)`
without checking how many bytes came back; it fails (returns the
`None` triple) exactly when the header bytes do not parse as a
hexadecimal integer (including the empty read at end-of-stream) or the
parsed value is negative; short or empty header and payload reads
otherwise yield a successful result with the bytes actually
received. -/
theorem claim5_amended (st : ProxyState) :
    (Read.server st).1 = none ↔
      (pyIntHex (recvChunks 6 st.serverIn).1 = none
        ∨ ∃ z : Int, pyIntHex (recvChunks 6 st.serverIn).1 = some z ∧ z < 0) := by
  cases h : pyIntHex (recvChunks 6 st.serverIn).1 with
  | none => simp [Read.server, h]
  | some z =>
    by_cases hz : z < 0
    · simp [Read.server, h, hz]
    · simp [Read.server, h, hz]

/-- C6: in LengthPrefixed mode, for every well-formed frame (6-byte
header parsing to the payload length, then the payload), the inbound
path strips the header and writes `payload ++ newline` to the
console. -/
theorem claim6_stripHeader (hdr p : List Char) (ci : List (List Char)) (so co : List Char)
    (hlen : hdr.length = 6) (hval : pyIntHex hdr = some (p.length : Int)) :
    SwankProxy.fromServer ⟨[hdr ++ p], ci, so, co⟩
      = (⟨[], ci, so, co ++ (p ++ ['\n'])⟩, true) :=
  swankFromServer_frame hdr p ci so co hlen hval

/-- Witness for C6 at the frame `"00000aHELLO TEST"`: console output is
exactly `"HELLO TEST\n"`. -/
theorem claim6_stripHeader_witness :
    ("00000a".toList.length = 6)
      ∧ (pyIntHex "00000a".toList = some ("HELLO TEST".toList.length : Int))
      ∧ SwankProxy.fromServer ⟨["00000a".toList ++ "HELLO TEST".toList], [], [], []⟩
          = (⟨[], [], [], [] ++ ("HELLO TEST".toList ++ ['\n'])⟩, true) :=
  ⟨by decide, by decide, claim6_stripHeader _ _ _ _ _ (by decide) (by decide)⟩

/-- C7: for every length `0 ≤ n ≤ 0xFFFFFF` the generated header
`"%06x" % n` is exactly 6 characters, all lowercase hexadecimal digits,
and parses back to `n` (so the zero padding does not change the
value). -/
theorem claim7_headerShape (n : Nat) (h : n ≤ 0xFFFFFF) :
    (pyFormat06x n).length = 6
      ∧ (pyFormat06x n).all isLowerHexChar = true
      ∧ pyIntHex (pyFormat06x n) = some (n : Int) :=
  ⟨pyFormat06x_length h, pyFormat06x_all_lower n, parse_pyFormat06x n⟩

/-- Witness for C7 at length 5: the header is `"000005"`. -/
theorem claim7_headerShape_witness :
    (5 ≤ 0xFFFFFF)
      ∧ ((pyFormat06x 5).length = 6
          ∧ (pyFormat06x 5).all isLowerHexChar = true
          ∧ pyIntHex (pyFormat06x 5) = some (5 : Int))
      ∧ pyFormat06x 5 = "000005".toList :=
  ⟨by decide, claim7_headerShape 5 (by decide), by decide⟩

/-- C8: when the 6 header bytes read from the server do not parse as
hexadecimal, the handler returns failure before any payload is read or
written — the I/O state keeps its console output unchanged (only
`serverIn` advances past the consumed junk bytes), the loop flag is
cleared, and a loop whose flag is cleared terminates immediately at the
top of the next iteration (the `Stopped` state), in either framing
mode. -/
theorem claim8_badHeaderStops (st : ProxyState)
    (h : pyIntHex (recvChunks 6 st.serverIn).1 = none) :
    (runIteration SwankProxyImpl [Endpoint.server] st true
        = ({st with serverIn := (recvChunks 6 st.serverIn).2}, false, [false]))
      ∧ (runIteration RawProxyImpl [Endpoint.server] st true
        = ({st with serverIn := (recvChunks 6 st.serverIn).2}, false, [false]))
      ∧ (∀ fuel sched t st2, runLoop SwankProxyImpl fuel sched t st2 false = (st2, false)) := by
  have hr := Read.server_badHeader st h
  refine ⟨?_, ?_, fun fuel sched t st2 => runLoop_stopped _ fuel sched t st2⟩
  · simp [runIteration, dispatch, SwankProxyImpl, SwankProxy.fromServer, hr]
  · simp [runIteration, dispatch, RawProxyImpl, RawProxy.fromServer, hr]

/-- Witness for C8 at the malformed header `"XYZZY!"`. -/
theorem claim8_badHeaderStops_witness :
    (pyIntHex (recvChunks 6 (⟨["XYZZY!".toList], [], [], []⟩ : ProxyState).serverIn).1 = none)
      ∧ runIteration SwankProxyImpl [Endpoint.server] ⟨["XYZZY!".toList], [], [], []⟩ true
        = (⟨[], [], [], []⟩, false, [false]) :=
  ⟨by decide, (claim8_badHeaderStops ⟨["XYZZY!".toList], [], [], []⟩ (by decide)).1⟩

/-- C9 counterexample: the claim says a console line of length
`0x1000000` or more makes the outbound path fail loudly rather than
emit a header longer than 6 characters.  The code has no such check:
`"%06x"` simply produces 7 hex digits and `SwankProxy.fromStdin`
succeeds, sending the oversized header followed by the line. -/
theorem claim9_counterexample :
    SwankProxy.fromStdin ⟨[], [List.replicate 16777216 'a'], [], []⟩
        = (⟨[], [], pyFormat06x 16777216 ++ List.replicate 16777216 'a', []⟩, true)
      ∧ 6 < (pyFormat06x 16777216).length := by
  constructor
  · have h := SwankProxy.fromStdin_spec ⟨[], [List.replicate 16777216 'a'], [], []⟩
      (List.replicate 16777216 'a') [] rfl
    rw [h]
    simp only [List.length_replicate]
    rfl
  · have h7 : (pyHex 16777216).length = 7 := by
      rw [pyHex, if_neg (by norm_num)]
      exact le_antisymm (hexAux_length_le _ _ 7 le_rfl (by norm_num))
        (hexAux_length_ge _ _ 6 le_rfl (by norm_num))
    rw [pyFormat06x, List.length_append, List.length_replicate, h7]
    omega

/-- C9 amended: for every console line of length `0x1000000` or more,
the LengthPrefixed outbound path does not fail: it emits
`"%06x" % len(line)` — which is longer than 6 characters — followed by
the line, silently corrupting the framing instead of raising a
`FramingError`. -/
theorem claim9_amended (st : ProxyState) (line : List Char) (rest : List (List Char))
    (h : st.consoleIn = line :: rest) (hlen : 0x1000000 ≤ line.length) :
    SwankProxy.fromStdin st
        = ({st with consoleIn := rest, serverOut := st.serverOut ++ (pyFormat06x line.length ++ line)}, true)
      ∧ 6 < (pyFormat06x line.length).length := by
  refine ⟨SwankProxy.fromStdin_spec st line rest h, ?_⟩
  have h0 : line.length ≠ 0 := by omega
  have h7 : 7 ≤ (pyHex line.length).length := by
    rw [pyHex, if_neg h0]
    refine hexAux_length_ge _ _ 6 le_rfl ?_
    calc (16 : Nat) ^ 6 = 0x1000000 := by norm_num
    _ ≤ line.length := hlen
  rw [pyFormat06x, List.length_append, List.length_replicate]
  omega

/-- Witness for the amended C9 at a console line of exactly
`0x1000000` bytes. -/
theorem claim9_amended_witness :
    ((⟨[], [List.replicate 16777216 'a'], [], []⟩ : ProxyState).consoleIn
        = List.replicate 16777216 'a' :: [])
      ∧ (0x1000000 ≤ (List.replicate 16777216 'a').length)
      ∧ (SwankProxy.fromStdin ⟨[], [List.replicate 16777216 'a'], [], []⟩
            = ({(⟨[], [List.replicate 16777216 'a'], [], []⟩ : ProxyState) with consoleIn := ([] : List (List Char)), serverOut := (⟨[], [List.replicate 16777216 'a'], [], []⟩ : ProxyState).serverOut ++ (pyFormat06x (List.replicate 16777216 'a').length ++ List.replicate 16777216 'a')}, true)
          ∧ 6 < (pyFormat06x (List.replicate 16777216 'a').length).length) :=
  ⟨rfl, by rw [List.length_replicate], claim9_amended _ _ _ rfl (by rw [List.length_replicate])⟩

/-- C10: within one iteration of the proxy loop, every endpoint
reported ready gets its handler invoked even if an earlier handler in
the same iteration failed: the result trace has one entry per ready
endpoint and the final state is the left fold of all the handlers over
the ready list, for any flag value; the stop flag is consulted only at
the top of the next iteration, where a cleared flag ends the loop
without dispatching anything. -/
theorem claim10_allReadyDispatched (p : ProxyImpl) (ready : List Endpoint)
    (st : ProxyState) (flag : Bool) :
    (runIteration p ready st flag).2.2.length = ready.length
      ∧ (runIteration p ready st flag).1
          = ready.foldl (fun s e => (dispatch p e s).1) st
      ∧ (∀ fuel sched t st2, runLoop p (fuel+1) sched t st2 false = (st2, false)) :=
  ⟨runIteration_trace_length p ready st flag, runIteration_state_foldl p ready st flag,
    fun fuel sched t st2 => runLoop_stopped p (fuel+1) sched t st2⟩

end EnsimeClient
